import Mathlib

/-!
# Social-media backend: social graph and engagement layer

A shallow embedding of the follow/like/comment logic of the repository
(`social_media/views.py`, `social_media/serializers.py`, `user/views.py`).
Database tables become lists of rows; each Django ORM call becomes the
corresponding list operation; each HTTP handler becomes a function from the
state (plus the request parameters) to an HTTP-level outcome and the new
state.

Conventions carried over from Django semantics:
  * `Model.objects.filter(...).exists()` → `List.any`;
  * `Model.objects.create(...)` → appending one row;
  * `Model.objects.get(...)` → inspecting the list of matching rows:
    zero rows is `DoesNotExist` (handled or a 404), more than one is
    `MultipleObjectsReturned`, an unhandled server error;
  * `get_object_or_404(Model, ...)` → `List.find?`, `none` being a 404;
  * comparing two model instances (`follower == following`,
    `post.author == user_profile`) compares primary keys;
  * `field__icontains=v` → case-insensitive substring test.

The model definitions (`social_media/models.py`) are not part of the
reviewed sources; row shapes are reconstructed from their uses in
`views.py` and `serializers.py`, and the two serializer fields computed on
the model (`likes_count`, `comments_count`) are modelled from the spec
where noted.
-/

namespace SocialMedia

/-- Primary key of a `Profile` row. -/
abbrev ProfileId := Nat

/-- Primary key of a `Post` row. -/
abbrev PostId := Nat

/-- Primary key of a user (identity) row. -/
abbrev UserId := Nat

/-- Character strings, as lists of characters. -/
abbrev Str := List Char

/-- A `Profile` row: one-to-one extension of a user identity with display
fields (`social_media/models.py` via its uses in `views.py` and
`serializers.py`). -/
structure Profile where
  id : ProfileId
  user : UserId
  username : Str
  first_name : Str
  last_name : Str
  deriving DecidableEq, Repr

/-- A `FollowingRelationships` row: a directed follow edge, stored as the
pair of profile primary keys. -/
structure FollowingRelationship where
  follower : ProfileId
  following : ProfileId
  deriving DecidableEq, Repr

/-- A `Post` row. -/
structure Post where
  id : PostId
  author : ProfileId
  content : Str
  deriving DecidableEq, Repr

/-- A `Like` row: the (profile, post) join-table entry. -/
structure Like where
  profile : ProfileId
  post : PostId
  deriving DecidableEq, Repr

/-- A `Comment` row. -/
structure Comment where
  id : Nat
  author : ProfileId
  post : PostId
  content : Str
  deriving DecidableEq, Repr

/-- The persisted state: one list of rows per table, plus the user
(identity) table referenced by `CurrentUserProfileView.destroy`. -/
structure State where
  users : List UserId
  profiles : List Profile
  follows : List FollowingRelationship
  posts : List Post
  likes : List Like
  comments : List Comment
  deriving DecidableEq, Repr

/-- HTTP-level outcome of a handler, matching the `status.HTTP_*` constants
used in `views.py`; `serverError` stands for an unhandled exception
(`MultipleObjectsReturned`, missing related object). -/
inductive Outcome where
  | ok
  | created
  | noContent
  | badRequest
  | notFound
  | conflict
  | serverError
  deriving DecidableEq, Repr

/-! ## Case-insensitive substring matching (`__icontains`) -/

/-- Lower-case a string character by character. -/
def lowerStr (s : Str) : Str := s.map Char.toLower

/-- `needle` begins `hay` (character-exact). -/
def startsWithList (needle hay : Str) : Bool :=
  match needle, hay with
  | [], _ => true
  | _ :: _, [] => false
  | a :: as, b :: bs => a == b && startsWithList as bs

/-- `needle` occurs contiguously inside `hay` (character-exact). -/
def isSubstr (needle : Str) : Str → Bool
  | [] => startsWithList needle []
  | c :: t => startsWithList needle (c :: t) || isSubstr needle t

/-- Django's `field__icontains=needle` test: case-insensitive substring. -/
def icontains (hay needle : Str) : Bool :=
  isSubstr (lowerStr needle) (lowerStr hay)

/-- The specification-level notion the filters are claimed to implement:
`needle` is a case-insensitive substring of `hay`. -/
def CISubstr (needle hay : Str) : Prop :=
  lowerStr needle <:+: lowerStr hay

/-- The optional-filter clause of the claim: whenever the filter string is
supplied, the field contains it case-insensitively. -/
def OptFilterHolds (o : Option Str) (hay : Str) : Prop :=
  ∀ f, o = some f → CISubstr f hay

/-- The author-filter clause of the claim: whenever the filter string is
supplied, the post's author (the profile row carrying the post's author
key) has a username containing it case-insensitively. -/
def AuthorUsernameHolds (s : List Profile) (o : Option Str) (p : Post) : Prop :=
  ∀ f, o = some f → ∃ prof ∈ s, prof.id = p.author ∧ CISubstr f prof.username

/-! ## Row lookups (`get_object_or_404`, `request.user.profile`) -/

/-- `get_object_or_404(Profile, user=request.user)` and
`request.user.profile`: the requester's profile row. The user field is a
one-to-one reference, so at most one row matches. -/
def findProfileByUser (s : State) (u : UserId) : Option Profile :=
  s.profiles.find? (fun p => p.user == u)

/-- `get_object_or_404(Profile, pk=pk)`. -/
def findProfileByPk (s : State) (pk : ProfileId) : Option Profile :=
  s.profiles.find? (fun p => p.id == pk)

/-- `get_object_or_404(Post, pk=pk)`. -/
def findPostByPk (s : State) (pk : PostId) : Option Post :=
  s.posts.find? (fun p => p.id == pk)

/-! ## Social graph manager (`ProfileViewSet.follow` / `.unfollow`) -/

/-- `ProfileViewSet.follow`: resolve the requester's profile and the
target profile (404 on either missing), reject self-follow (400), reject
an existing edge (409), otherwise insert the edge (200). The instance
comparison `follower == following` compares primary keys. -/
def follow (s : State) (u : UserId) (pk : ProfileId) : Outcome × State :=
  match findProfileByUser s u with
  | none => (.notFound, s)
  | some follower =>
    match findProfileByPk s pk with
    | none => (.notFound, s)
    | some following =>
      if follower.id == following.id then
        (.badRequest, s)
      else if s.follows.any
          (fun r => r.follower == follower.id && r.following == following.id) then
        (.conflict, s)
      else
        (.ok, { s with follows :=
          s.follows ++ [⟨follower.id, following.id⟩] })

/-- `ProfileViewSet.unfollow`: resolve both profiles (404 on either
missing), then `FollowingRelationships.objects.get(...)`: no matching row
is the handled `DoesNotExist` (404), exactly one row is deleted (204), and
more than one row raises `MultipleObjectsReturned` (unhandled, 500). -/
def unfollow (s : State) (u : UserId) (pk : ProfileId) : Outcome × State :=
  match findProfileByUser s u with
  | none => (.notFound, s)
  | some follower =>
    match findProfileByPk s pk with
    | none => (.notFound, s)
    | some following =>
      match s.follows.filter
          (fun r => r.follower == follower.id && r.following == following.id) with
      | [] => (.notFound, s)
      | [_] => (.noContent, { s with follows :=
          (s.follows.filter
            (fun r => !(r.follower == follower.id && r.following == following.id))) })
      | _ :: _ :: _ => (.serverError, s)

/-! ## Engagement manager (`PostViewSet.like` / `.unlike`, comments) -/

/-- `PostViewSet.like`: resolve the post (404 if missing), read
`request.user.profile` (an unhandled exception if the requester has no
profile row), reject the post's own author (400), reject an existing Like
row (409), otherwise insert one (200). `post.author == user_profile`
compares primary keys. -/
def like (s : State) (u : UserId) (pk : PostId) : Outcome × State :=
  match findPostByPk s pk with
  | none => (.notFound, s)
  | some post =>
    match findProfileByUser s u with
    | none => (.serverError, s)
    | some user_profile =>
      if post.author == user_profile.id then
        (.badRequest, s)
      else if s.likes.any
          (fun l => l.profile == user_profile.id && l.post == post.id) then
        (.conflict, s)
      else
        (.ok, { s with likes := s.likes ++ [⟨user_profile.id, post.id⟩] })

/-- `PostViewSet.unlike`: resolve the post (404), then
`Like.objects.get(...)`: no row is the handled `DoesNotExist` (404),
exactly one row is deleted (200), more than one is an unhandled
`MultipleObjectsReturned` (500). -/
def unlike (s : State) (u : UserId) (pk : PostId) : Outcome × State :=
  match findPostByPk s pk with
  | none => (.notFound, s)
  | some post =>
    match findProfileByUser s u with
    | none => (.serverError, s)
    | some user_profile =>
      match s.likes.filter
          (fun l => l.profile == user_profile.id && l.post == post.id) with
      | [] => (.notFound, s)
      | [_] => (.ok, { s with likes :=
          (s.likes.filter
            (fun l => !(l.profile == user_profile.id && l.post == post.id))) })
      | _ :: _ :: _ => (.serverError, s)

/-- `CommentViewSet.perform_create`: resolve the post (404), then insert a
Comment row owned by the requester's profile (201). `cid` is the fresh
primary key the database assigns. -/
def addComment (s : State) (u : UserId) (pk : PostId) (content : Str)
    (cid : Nat) : Outcome × State :=
  match findPostByPk s pk with
  | none => (.notFound, s)
  | some post =>
    match findProfileByUser s u with
    | none => (.serverError, s)
    | some user_profile =>
      (.created, { s with comments :=
        s.comments ++ [⟨cid, user_profile.id, post.id, content⟩] })

/-! ## Listing / query layer (`PostViewSet.get_queryset`, feed, my-posts,
liked, `ProfileViewSet.get_queryset`) -/

/-- A post row carrying the `liked_by_user` annotation added by
`PostViewSet.get_queryset`. -/
structure AnnotatedPost where
  post : Post
  liked_by_user : Bool
  deriving DecidableEq, Repr

/-- The `Exists(Like.objects.filter(profile=user_profile, post=OuterRef("pk")))`
annotation: whether the viewing profile has a Like row for the post. -/
def likedByUser (s : State) (viewer : ProfileId) (p : PostId) : Bool :=
  s.likes.any (fun l => l.profile == viewer && l.post == p)

/-- `PostViewSet.get_queryset`: annotate every post with `liked_by_user`
for the requester's profile `viewer`, then apply the optional
`author_username` and `content` `__icontains` filters (in that order;
each is applied whenever the query parameter is present). A post whose
author key resolves to no profile row cannot satisfy the author join. -/
def postGetQueryset (s : State) (viewer : ProfileId)
    (content author_username : Option Str) : List AnnotatedPost :=
  let base := s.posts.map (fun p => AnnotatedPost.mk p (likedByUser s viewer p.id))
  let q1 := match author_username with
    | none => base
    | some f => base.filter (fun ap =>
        match findProfileByPk s ap.post.author with
        | some prof => icontains prof.username f
        | none => false)
  match content with
  | none => q1
  | some f => q1.filter (fun ap => icontains ap.post.content f)

/-- One `if <param>: queryset = queryset.filter(field__icontains=<param>)`
step of `ProfileViewSet.get_queryset`: the handler tests the query
parameter for truthiness, so an absent or empty parameter applies no
filter. -/
def truthyIcontainsFilter (l : List Profile) (field : Profile → Str)
    (o : Option Str) : List Profile :=
  match o with
  | some f => if f.isEmpty then l else l.filter (fun p => icontains (field p) f)
  | none => l

/-- `ProfileViewSet.get_queryset`: optional `__icontains` filters on
username, first name, last name, applied in that order. -/
def profileGetQueryset (s : State)
    (username first_name last_name : Option Str) : List Profile :=
  truthyIcontainsFilter
    (truthyIcontainsFilter
      (truthyIcontainsFilter s.profiles (fun p => p.username) username)
      (fun p => p.first_name) first_name)
    (fun p => p.last_name) last_name

/-- `PostViewSet.feed`: the ids of the profiles the requester follows
(`user_profile.following.values_list("following", flat=True)`), then
`get_queryset().filter(author__in=followed_profiles)`. -/
def feedQueryset (s : State) (viewer : ProfileId)
    (content author_username : Option Str) : List AnnotatedPost :=
  let followed := (s.follows.filter (fun r => r.follower == viewer)).map
    (fun r => r.following)
  (postGetQueryset s viewer content author_username).filter
    (fun ap => followed.contains ap.post.author)

/-- `PostViewSet.my_posts`: `get_queryset().filter(author=user_profile)`. -/
def myPostsQueryset (s : State) (viewer : ProfileId)
    (content author_username : Option Str) : List AnnotatedPost :=
  (postGetQueryset s viewer content author_username).filter
    (fun ap => ap.post.author == viewer)

/-- `PostViewSet.liked`: `get_queryset().filter(likes__profile=user_profile)`,
the join collapsed to an existence test (at most one Like row can match a
given post under the uniqueness invariant). -/
def likedQueryset (s : State) (viewer : ProfileId)
    (content author_username : Option Str) : List AnnotatedPost :=
  (postGetQueryset s viewer content author_username).filter
    (fun ap => s.likes.any (fun l => l.profile == viewer && l.post == ap.post.id))

/-! ## Serialization (`PostListSerializer`) -/

/-- Modelled from the spec: the `likes_count` serializer field is read from
the `Post` model, whose definition (`social_media/models.py`) is not among
the reviewed sources; per the spec it is the live-computed number of Like
rows for the post. -/
def likes_count (s : State) (p : PostId) : Nat :=
  (s.likes.filter (fun l => l.post == p)).length

/-- Modelled from the spec: the `comments_count` serializer field, the
live-computed number of Comment rows for the post (see `likes_count`). -/
def comments_count (s : State) (p : PostId) : Nat :=
  (s.comments.filter (fun c => c.post == p)).length

/-- The record `PostListSerializer` emits for one annotated post:
the row itself plus `likes_count`, `comments_count` and `liked_by_user`. -/
structure PostListItem where
  post : Post
  likes_count : Nat
  comments_count : Nat
  liked_by_user : Bool
  deriving DecidableEq, Repr

/-- Serialize one annotated post at the current state. -/
def serializePost (s : State) (ap : AnnotatedPost) : PostListItem :=
  ⟨ap.post, likes_count s ap.post.id, comments_count s ap.post.id,
    ap.liked_by_user⟩

/-- The `list` action's response body. -/
def listPosts (s : State) (viewer : ProfileId)
    (content author_username : Option Str) : List PostListItem :=
  (postGetQueryset s viewer content author_username).map (serializePost s)

/-- The `feed` action's response body. -/
def feedItems (s : State) (viewer : ProfileId)
    (content author_username : Option Str) : List PostListItem :=
  (feedQueryset s viewer content author_username).map (serializePost s)

/-- The `my-posts` action's response body. -/
def myPostsItems (s : State) (viewer : ProfileId)
    (content author_username : Option Str) : List PostListItem :=
  (myPostsQueryset s viewer content author_username).map (serializePost s)

/-- The `liked` action's response body. -/
def likedItems (s : State) (viewer : ProfileId)
    (content author_username : Option Str) : List PostListItem :=
  (likedQueryset s viewer content author_username).map (serializePost s)

/-! ## Derived follower counts (`CurrentUserProfileView.get_queryset`) -/

/-- The `followers_count=Count("followers", distinct=True)` annotation:
the number of FollowingRelationships rows whose `following` side is the
profile (each stored row is a distinct database row). -/
def followers_count (s : State) (p : ProfileId) : Nat :=
  (s.follows.filter (fun r => r.following == p)).length

/-- The `following_count=Count("following", distinct=True)` annotation:
the number of FollowingRelationships rows whose `follower` side is the
profile. -/
def following_count (s : State) (p : ProfileId) : Nat :=
  (s.follows.filter (fun r => r.follower == p)).length

/-! ## Account deletion (`CurrentUserProfileView.destroy`) -/

/-- `CurrentUserProfileView.destroy`: resolve the requester's profile row
(404 if none), let `super().destroy` delete the profile row (204), then
delete the underlying user row, which cascades to any profile still
referencing it. Deeper content cascades live in the unreviewed model
definitions and are outside this claim. -/
def destroyCurrentProfile (s : State) (u : UserId) : Outcome × State :=
  match findProfileByUser s u with
  | none => (.notFound, s)
  | some profile =>
    let s1 := { s with profiles := s.profiles.filter (fun p => !(p.id == profile.id)) }
    (.noContent, { s1 with
      users := s1.users.filter (fun x => !(x == u)),
      profiles := s1.profiles.filter (fun p => !(p.user == u)) })

/-! ## Logout (`user/views.py`, `LogoutView.post`) -/

/-- The external token store: `OutstandingToken` rows as (token pk, owning
user) pairs and `BlacklistedToken` rows as the blacklisted token pks. -/
structure TokenState where
  outstanding : List (Nat × UserId)
  blacklisted : List Nat
  deriving DecidableEq, Repr

/-- `LogoutView.post`: for every `OutstandingToken` of the requesting
user, `BlacklistedToken.objects.get_or_create(token=token)`. -/
def logout (ts : TokenState) (u : UserId) : TokenState :=
  { ts with blacklisted :=
      (ts.outstanding.foldl
        (fun acc t =>
          if t.2 == u then
            if acc.contains t.1 then acc else acc ++ [t.1]
          else acc)
        ts.blacklisted) }

/-! ## Operations as a step relation (for invariant preservation) -/

/-- One request against the module: the five mutating handlers and the
read-only listings. -/
inductive Op where
  | follow (u : UserId) (pk : ProfileId)
  | unfollow (u : UserId) (pk : ProfileId)
  | like (u : UserId) (pk : PostId)
  | unlike (u : UserId) (pk : PostId)
  | addComment (u : UserId) (pk : PostId) (content : Str) (cid : Nat)
  | listPosts (viewer : ProfileId) (content author_username : Option Str)
  | feed (viewer : ProfileId) (content author_username : Option Str)
  | myPosts (viewer : ProfileId) (content author_username : Option Str)
  | likedPosts (viewer : ProfileId) (content author_username : Option Str)
  | listProfiles (username first_name last_name : Option Str)
  deriving DecidableEq, Repr

/-- The state after one request. The listing handlers only evaluate a
query (`listPosts`, `feedItems`, `myPostsItems`, `likedItems`,
`profileGetQueryset`) and leave the tables unchanged. -/
def applyOp (s : State) : Op → State
  | .follow u pk => (follow s u pk).2
  | .unfollow u pk => (unfollow s u pk).2
  | .like u pk => (like s u pk).2
  | .unlike u pk => (unlike s u pk).2
  | .addComment u pk content cid => (addComment s u pk content cid).2
  | .listPosts _ _ _ => s
  | .feed _ _ _ => s
  | .myPosts _ _ _ => s
  | .likedPosts _ _ _ => s
  | .listProfiles _ _ _ => s

/-- States reachable from `s₀` by any sequence of requests. -/
inductive Reachable (s₀ : State) : State → Prop where
  | refl : Reachable s₀ s₀
  | step {t : State} (op : Op) : Reachable s₀ t → Reachable s₀ (applyOp t op)

/-- The relational invariants of §3 of the spec: no self-edge, at most one
follow edge per ordered pair, at most one Like per (profile, post) pair.
A `FollowingRelationship` (resp. `Like`) row is exactly its field pair, so
"at most one row per pair" is `Nodup`. -/
def StateInv (s : State) : Prop :=
  (∀ r ∈ s.follows, r.follower ≠ r.following) ∧
  s.follows.Nodup ∧ s.likes.Nodup

/-! ## Repeated follows (for the follower-count claim) -/

/-- Issue `follow` once per user in `us`, each targeting profile pk; the
Boolean records whether every call returned 200. -/
def runFollowsOk (s : State) (us : List UserId) (pk : ProfileId) :
    Bool × State :=
  us.foldl
    (fun acc u => ((acc.1 && ((follow acc.2 u pk).1 == Outcome.ok)),
      (follow acc.2 u pk).2))
    (true, s)

/-- Issue `follow` by the one user `u` once per target in `pks`; the
Boolean records whether every call returned 200. -/
def runFollowTargetsOk (s : State) (u : UserId) (pks : List ProfileId) :
    Bool × State :=
  pks.foldl
    (fun acc pk => ((acc.1 && ((follow acc.2 u pk).1 == Outcome.ok)),
      (follow acc.2 u pk).2))
    (true, s)

/-! ## Helper lemmas -/

theorem startsWithList_iff (needle hay : Str) :
    startsWithList needle hay = true ↔ needle <+: hay := by
  induction needle generalizing hay with
  | nil => simp [startsWithList]
  | cons a as ih =>
    cases hay with
    | nil =>
      simp [startsWithList]
    | cons b bs =>
      simp [startsWithList, List.cons_prefix_cons, ih, And.comm]

theorem isSubstr_iff (needle hay : Str) :
    isSubstr needle hay = true ↔ needle <:+: hay := by
  induction hay with
  | nil =>
    simp [isSubstr, startsWithList_iff]
  | cons c t ih =>
    rw [isSubstr, Bool.or_eq_true, startsWithList_iff, ih,
      List.infix_cons_iff]

theorem icontains_iff (hay needle : Str) :
    icontains hay needle = true ↔ CISubstr needle hay :=
  isSubstr_iff (lowerStr needle) (lowerStr hay)

theorem CISubstr_nil (hay : Str) : CISubstr [] hay :=
  ⟨[], lowerStr hay, by simp [lowerStr]⟩

theorem findProfileByUser_set_follows (s : State)
    (l : List FollowingRelationship) (u : UserId) :
    findProfileByUser { s with follows := l } u = findProfileByUser s u := rfl

theorem findProfileByPk_set_follows (s : State)
    (l : List FollowingRelationship) (pk : ProfileId) :
    findProfileByPk { s with follows := l } pk = findProfileByPk s pk := rfl

theorem follow_creates (s : State) (u : UserId) (pk : ProfileId)
    (p tp : Profile)
    (hu : findProfileByUser s u = some p)
    (hpk : findProfileByPk s pk = some tp)
    (hne : p.id ≠ tp.id)
    (hnew : ∀ r ∈ s.follows, ¬(r.follower = p.id ∧ r.following = tp.id)) :
    follow s u pk =
      (.ok, { s with follows := s.follows ++ [⟨p.id, tp.id⟩] }) := by
  have hbeq : (p.id == tp.id) = false := by simpa using hne
  have hany : s.follows.any
      (fun r => r.follower == p.id && r.following == tp.id) = false := by
    simp only [List.any_eq_false, Bool.and_eq_true, beq_iff_eq]
    intro r hr
    exact fun hc => hnew r hr ⟨hc.1, hc.2⟩
  simp [follow, hu, hpk, hbeq, hany]

theorem follow_conflict (s : State) (u : UserId) (pk : ProfileId)
    (p tp : Profile)
    (hu : findProfileByUser s u = some p)
    (hpk : findProfileByPk s pk = some tp)
    (hne : p.id ≠ tp.id)
    (hex : ∃ r ∈ s.follows, r.follower = p.id ∧ r.following = tp.id) :
    follow s u pk = (.conflict, s) := by
  have hbeq : (p.id == tp.id) = false := by simpa using hne
  have hany : s.follows.any
      (fun r => r.follower == p.id && r.following == tp.id) = true := by
    rcases hex with ⟨r, hr, h1, h2⟩
    exact List.any_eq_true.mpr ⟨r, hr, by simp [h1, h2]⟩
  simp [follow, hu, hpk, hbeq, hany]

/-! ## Claims -/

/-- Claim C4: For every profile P, `Follow(P, P)` fails with a 400
`ValidationError` and leaves the state unchanged, whatever edges exist:
when the requester's profile and the target profile have the same primary
key, `follow` answers `badRequest` and returns the state as it was. -/
theorem self_follow_rejected (s : State) (u : UserId) (pk : ProfileId)
    (p q : Profile)
    (hu : findProfileByUser s u = some p)
    (hpk : findProfileByPk s pk = some q)
    (hid : p.id = q.id) :
    follow s u pk = (.badRequest, s) := by
  simp [follow, hu, hpk, hid]

/-- Witness for `self_follow_rejected` at a concrete state: one profile
following itself. -/
theorem self_follow_rejected_witness :
    follow
      ⟨[10], [⟨1, 10, ['a'], [], []⟩], [], [], [], []⟩ 10 1 =
      (.badRequest, ⟨[10], [⟨1, 10, ['a'], [], []⟩], [], [], [], []⟩) :=
  self_follow_rejected _ 10 1 ⟨1, 10, ['a'], [], []⟩ ⟨1, 10, ['a'], [], []⟩
    (by decide) (by decide) rfl

/-- Claim C3: For distinct profiles A (resolved from the requesting user) and
B (resolved from the target pk) with no existing edge: `Follow(A, B)`
succeeds and appends the edge; repeating it fails with a 409
`ConflictError` leaving the state unchanged; `Unfollow(A, B)` then
succeeds (204) and restores the original state; repeating it fails with a
404 `NotFoundError`. -/
theorem follow_unfollow_lifecycle (s : State) (u : UserId) (pk : ProfileId)
    (pa pb : Profile)
    (hu : findProfileByUser s u = some pa)
    (hpk : findProfileByPk s pk = some pb)
    (hne : pa.id ≠ pb.id)
    (hnoedge : ∀ r ∈ s.follows, ¬(r.follower = pa.id ∧ r.following = pb.id)) :
    follow s u pk =
      (.ok, { s with follows := s.follows ++ [⟨pa.id, pb.id⟩] }) ∧
    follow { s with follows := s.follows ++ [⟨pa.id, pb.id⟩] } u pk =
      (.conflict, { s with follows := s.follows ++ [⟨pa.id, pb.id⟩] }) ∧
    unfollow { s with follows := s.follows ++ [⟨pa.id, pb.id⟩] } u pk =
      (.noContent, s) ∧
    unfollow s u pk = (.notFound, s) := by
  have hbeq : (pa.id == pb.id) = false := by simpa using hne
  have hfalse : ∀ r ∈ s.follows,
      (r.follower == pa.id && r.following == pb.id) = false := by
    intro r hr
    simp only [Bool.and_eq_true, beq_iff_eq, Bool.and_eq_false_iff]
    by_cases h1 : r.follower = pa.id
    · right
      simp only [beq_eq_false_iff_ne, ne_eq]
      exact fun h2 => hnoedge r hr ⟨h1, h2⟩
    · left
      simpa using h1
  have hfilter : s.follows.filter
      (fun r => r.follower == pa.id && r.following == pb.id) = [] := by
    rw [List.filter_eq_nil_iff]
    intro r hr
    simp [hfalse r hr]
  have hkeep : s.follows.filter
      (fun r => !(r.follower == pa.id && r.following == pb.id)) = s.follows := by
    rw [List.filter_eq_self]
    intro r hr
    simp [hfalse r hr]
  refine ⟨follow_creates s u pk pa pb hu hpk hne hnoedge, ?_, ?_, ?_⟩
  · exact follow_conflict _ u pk pa pb hu hpk hne
      ⟨⟨pa.id, pb.id⟩, by simp, rfl, rfl⟩
  · simp only [unfollow, findProfileByUser_set_follows, hu,
      findProfileByPk_set_follows, hpk]
    rw [List.filter_append, hfilter, List.filter_append, hkeep]
    simp
  · simp [unfollow, hu, hpk, hfilter]

/-- Witness for `follow_unfollow_lifecycle`: two distinct profiles, no
prior edge. -/
theorem follow_unfollow_lifecycle_witness :
    follow
      ⟨[10, 20], [⟨1, 10, ['a'], [], []⟩, ⟨2, 20, ['b'], [], []⟩],
        [], [], [], []⟩ 10 2 =
      (.ok, ⟨[10, 20], [⟨1, 10, ['a'], [], []⟩, ⟨2, 20, ['b'], [], []⟩],
        [⟨1, 2⟩], [], [], []⟩) ∧
    follow
      ⟨[10, 20], [⟨1, 10, ['a'], [], []⟩, ⟨2, 20, ['b'], [], []⟩],
        [⟨1, 2⟩], [], [], []⟩ 10 2 =
      (.conflict, ⟨[10, 20], [⟨1, 10, ['a'], [], []⟩, ⟨2, 20, ['b'], [], []⟩],
        [⟨1, 2⟩], [], [], []⟩) ∧
    unfollow
      ⟨[10, 20], [⟨1, 10, ['a'], [], []⟩, ⟨2, 20, ['b'], [], []⟩],
        [⟨1, 2⟩], [], [], []⟩ 10 2 =
      (.noContent, ⟨[10, 20], [⟨1, 10, ['a'], [], []⟩, ⟨2, 20, ['b'], [], []⟩],
        [], [], [], []⟩) ∧
    unfollow
      ⟨[10, 20], [⟨1, 10, ['a'], [], []⟩, ⟨2, 20, ['b'], [], []⟩],
        [], [], [], []⟩ 10 2 =
      (.notFound, ⟨[10, 20], [⟨1, 10, ['a'], [], []⟩, ⟨2, 20, ['b'], [], []⟩],
        [], [], [], []⟩) :=
  follow_unfollow_lifecycle _ 10 2 ⟨1, 10, ['a'], [], []⟩ ⟨2, 20, ['b'], [], []⟩
    rfl rfl (by decide) (by decide)

/-- Claim C5: `Like` preconditions: the post's own author gets a 400
`ValidationError` and no Like row is inserted; a non-owner gets a 409
`ConflictError` when a Like row for (profile, post) exists (state
unchanged), and otherwise exactly one Like row is appended (200). -/
theorem like_preconditions (s : State) (u : UserId) (pk : PostId)
    (post : Post) (prof : Profile)
    (hpost : findPostByPk s pk = some post)
    (hprof : findProfileByUser s u = some prof) :
    (post.author = prof.id → like s u pk = (.badRequest, s)) ∧
    (post.author ≠ prof.id →
      (∃ l ∈ s.likes, l.profile = prof.id ∧ l.post = post.id) →
      like s u pk = (.conflict, s)) ∧
    (post.author ≠ prof.id →
      (∀ l ∈ s.likes, ¬(l.profile = prof.id ∧ l.post = post.id)) →
      like s u pk = (.ok, { s with likes := s.likes ++ [⟨prof.id, post.id⟩] })) := by
  refine ⟨?_, ?_, ?_⟩
  · intro h
    simp [like, hpost, hprof, h]
  · intro hne hex
    have hbeq : (post.author == prof.id) = false := by simpa using hne
    have hany : s.likes.any
        (fun l => l.profile == prof.id && l.post == post.id) = true := by
      rcases hex with ⟨l, hl, h1, h2⟩
      exact List.any_eq_true.mpr ⟨l, hl, by simp [h1, h2]⟩
    simp [like, hpost, hprof, hbeq, hany]
  · intro hne hnone
    have hbeq : (post.author == prof.id) = false := by simpa using hne
    have hany : s.likes.any
        (fun l => l.profile == prof.id && l.post == post.id) = false := by
      simp only [List.any_eq_false, Bool.and_eq_true, beq_iff_eq]
      intro l hl
      exact fun hc => hnone l hl ⟨hc.1, hc.2⟩
    simp [like, hpost, hprof, hbeq, hany]

/-- Witness for `like_preconditions`: author 1 owns post 7; profile 2 has
not yet liked it. -/
theorem like_preconditions_witness :
    like
      ⟨[10, 20], [⟨1, 10, ['a'], [], []⟩, ⟨2, 20, ['b'], [], []⟩],
        [], [⟨7, 1, ['h', 'i']⟩], [], []⟩ 20 7 =
      (.ok, ⟨[10, 20], [⟨1, 10, ['a'], [], []⟩, ⟨2, 20, ['b'], [], []⟩],
        [], [⟨7, 1, ['h', 'i']⟩], [⟨2, 7⟩], []⟩) :=
  ((like_preconditions
      ⟨[10, 20], [⟨1, 10, ['a'], [], []⟩, ⟨2, 20, ['b'], [], []⟩],
        [], [⟨7, 1, ['h', 'i']⟩], [], []⟩ 20 7
      ⟨7, 1, ['h', 'i']⟩ ⟨2, 20, ['b'], [], []⟩
      rfl rfl).2.2) (by decide) (by decide)

/-- Claim C10: Deleting the authenticated user's own profile also deletes
the underlying user account: after a successful `destroy`, no profile row
references the user and the user row itself is gone. -/
theorem destroy_deletes_profile_and_user (s : State) (u : UserId)
    (p : Profile) (h : findProfileByUser s u = some p) :
    (destroyCurrentProfile s u).1 = .noContent ∧
    (∀ q ∈ (destroyCurrentProfile s u).2.profiles, q.user ≠ u) ∧
    u ∉ (destroyCurrentProfile s u).2.users := by
  refine ⟨by simp [destroyCurrentProfile, h], ?_, ?_⟩
  · intro q hq
    simp only [destroyCurrentProfile, h, List.mem_filter] at hq
    simpa using hq.2
  · intro hq
    simp only [destroyCurrentProfile, h, List.mem_filter] at hq
    simpa using hq.2

/-- Witness for `destroy_deletes_profile_and_user` at a concrete
one-user state. -/
theorem destroy_deletes_profile_and_user_witness :
    (destroyCurrentProfile
      ⟨[10], [⟨1, 10, ['a'], [], []⟩], [], [], [], []⟩ 10).1 = .noContent ∧
    (∀ q ∈ (destroyCurrentProfile
      ⟨[10], [⟨1, 10, ['a'], [], []⟩], [], [], [], []⟩ 10).2.profiles,
      q.user ≠ 10) ∧
    10 ∉ (destroyCurrentProfile
      ⟨[10], [⟨1, 10, ['a'], [], []⟩], [], [], [], []⟩ 10).2.users :=
  destroy_deletes_profile_and_user _ 10 ⟨1, 10, ['a'], [], []⟩ rfl

theorem logout_step_mono (u : UserId) (tok : Nat)
    (acc : List Nat) (t : Nat × UserId) (h : tok ∈ acc) :
    tok ∈ (if t.2 == u then
      (if acc.contains t.1 then acc else acc ++ [t.1]) else acc) := by
  split
  · split
    · exact h
    · exact List.mem_append_left _ h
  · exact h

theorem logout_fold_mem (u : UserId) (tok : Nat) (l : List (Nat × UserId)) :
    ∀ acc : List Nat, ((tok, u) ∈ l ∨ tok ∈ acc) →
    tok ∈ l.foldl
      (fun acc t =>
        if t.2 == u then
          if acc.contains t.1 then acc else acc ++ [t.1]
        else acc)
      acc := by
  induction l with
  | nil =>
    intro acc h
    rcases h with h | h
    · simp at h
    · simpa using h
  | cons t rest ih =>
    intro acc h
    rw [List.foldl_cons]
    apply ih
    rcases h with h | h
    · rcases List.mem_cons.mp h with heq | hrest
      · right
        subst heq
        simp only [beq_self_eq_true, if_true]
        split
        · rename_i hc
          exact List.mem_of_elem_eq_true hc
        · exact List.mem_append_right _ (by simp)
      · left
        exact hrest
    · right
      exact logout_step_mono u tok acc t h

/-- Claim C9: Logout blacklists the caller's current session token: if the
current session's token is among the user's outstanding tokens, it is
blacklisted after `logout` (the handler in fact blacklists every
outstanding token of the user). -/
theorem logout_blacklists_session_token (ts : TokenState) (u : UserId)
    (tok : Nat) (h : (tok, u) ∈ ts.outstanding) :
    tok ∈ (logout ts u).blacklisted := by
  simp only [logout]
  exact logout_fold_mem u tok ts.outstanding ts.blacklisted (Or.inl h)

/-- Witness for `logout_blacklists_session_token`: one outstanding token,
empty blacklist. -/
theorem logout_blacklists_session_token_witness :
    5 ∈ (logout ⟨[(5, 10)], []⟩ 10).blacklisted :=
  logout_blacklists_session_token ⟨[(5, 10)], []⟩ 10 5 (by decide)

theorem followedContains_iff (s : State) (viewer x : ProfileId) :
    (((s.follows.filter (fun r => r.follower == viewer)).map
      (fun r => r.following)).contains x) = true ↔
      ∃ r ∈ s.follows, r.follower = viewer ∧ r.following = x := by
  simp only [List.contains, List.elem_iff, List.mem_map, List.mem_filter,
    beq_iff_eq]
  constructor
  · rintro ⟨r, ⟨hr, hf⟩, hx⟩
    exact ⟨r, hr, hf, hx⟩
  · rintro ⟨r, hr, hf, hx⟩
    exact ⟨r, ⟨hr, hf⟩, hx⟩

/-- Claim C6: The feed is exactly the post listing restricted by the follow
relation: an item is in `Feed(viewer)` iff it is in `ListPosts` (same
filters) and some follow edge runs from the viewer to the item's author.
In particular a post by B is in A's feed when A follows B, and in no feed
of a profile that does not follow B. -/
theorem feed_characterization (s : State) (viewer : ProfileId)
    (c a : Option Str) (item : PostListItem) :
    item ∈ feedItems s viewer c a ↔
      (item ∈ listPosts s viewer c a ∧
       ∃ r ∈ s.follows, r.follower = viewer ∧ r.following = item.post.author) := by
  simp only [feedItems, listPosts, feedQueryset, List.mem_map,
    List.mem_filter]
  constructor
  · rintro ⟨ap, ⟨hqs, hcond⟩, rfl⟩
    have hpost : (serializePost s ap).post = ap.post := rfl
    refine ⟨⟨ap, hqs, rfl⟩, ?_⟩
    rw [hpost]
    exact (followedContains_iff s viewer ap.post.author).mp hcond
  · rintro ⟨⟨ap, hqs, rfl⟩, hfol⟩
    refine ⟨ap, ⟨hqs, ?_⟩, rfl⟩
    exact (followedContains_iff s viewer ap.post.author).mpr hfol

theorem follow_inv (s : State) (u : UserId) (pk : ProfileId)
    (h : StateInv s) : StateInv (follow s u pk).2 := by
  obtain ⟨hself, hnd, hlk⟩ := h
  cases hu : findProfileByUser s u with
  | none => simp only [follow, hu]; exact ⟨hself, hnd, hlk⟩
  | some p =>
    cases hpk : findProfileByPk s pk with
    | none => simp only [follow, hu, hpk]; exact ⟨hself, hnd, hlk⟩
    | some tp =>
      cases hid : (p.id == tp.id) with
      | true => simp only [follow, hu, hpk, hid]; exact ⟨hself, hnd, hlk⟩
      | false =>
        cases hany : s.follows.any
            (fun r => r.follower == p.id && r.following == tp.id) with
        | true =>
          simp only [follow, hu, hpk, hid, hany]
          exact ⟨hself, hnd, hlk⟩
        | false =>
          simp only [follow, hu, hpk, hid, hany, Bool.false_eq_true,
            if_false]
          refine ⟨?_, ?_, hlk⟩
          · intro r hr
            rcases List.mem_append.mp hr with h1 | h1
            · exact hself r h1
            · have : r = ⟨p.id, tp.id⟩ := by simpa using h1
              subst this
              simpa using hid
          · rw [List.nodup_append]
            refine ⟨hnd, List.nodup_singleton _, ?_⟩
            intro e he he2
            have : e = ⟨p.id, tp.id⟩ := by simpa using he2
            subst this
            have := List.any_eq_false.mp hany _ he
            simp at this

theorem unfollow_inv (s : State) (u : UserId) (pk : ProfileId)
    (h : StateInv s) : StateInv (unfollow s u pk).2 := by
  obtain ⟨hself, hnd, hlk⟩ := h
  cases hu : findProfileByUser s u with
  | none => simp only [unfollow, hu]; exact ⟨hself, hnd, hlk⟩
  | some p =>
    cases hpk : findProfileByPk s pk with
    | none => simp only [unfollow, hu, hpk]; exact ⟨hself, hnd, hlk⟩
    | some tp =>
      cases hm : s.follows.filter
          (fun r => r.follower == p.id && r.following == tp.id) with
      | nil => simp only [unfollow, hu, hpk, hm]; exact ⟨hself, hnd, hlk⟩
      | cons e rest =>
        cases rest with
        | nil =>
          simp only [unfollow, hu, hpk, hm]
          refine ⟨?_, List.Nodup.filter _ hnd, hlk⟩
          intro r hr
          exact hself r (List.mem_of_mem_filter hr)
        | cons f rest2 =>
          simp only [unfollow, hu, hpk, hm]
          exact ⟨hself, hnd, hlk⟩

theorem like_inv (s : State) (u : UserId) (pk : PostId)
    (h : StateInv s) : StateInv (like s u pk).2 := by
  obtain ⟨hself, hnd, hlk⟩ := h
  cases hpost : findPostByPk s pk with
  | none => simp only [like, hpost]; exact ⟨hself, hnd, hlk⟩
  | some post =>
    cases hu : findProfileByUser s u with
    | none => simp only [like, hpost, hu]; exact ⟨hself, hnd, hlk⟩
    | some prof =>
      cases hid : (post.author == prof.id) with
      | true => simp only [like, hpost, hu, hid]; exact ⟨hself, hnd, hlk⟩
      | false =>
        cases hany : s.likes.any
            (fun l => l.profile == prof.id && l.post == post.id) with
        | true =>
          simp only [like, hpost, hu, hid, hany]
          exact ⟨hself, hnd, hlk⟩
        | false =>
          simp only [like, hpost, hu, hid, hany, Bool.false_eq_true,
            if_false]
          refine ⟨hself, hnd, ?_⟩
          rw [List.nodup_append]
          refine ⟨hlk, List.nodup_singleton _, ?_⟩
          intro e he he2
          have : e = ⟨prof.id, post.id⟩ := by simpa using he2
          subst this
          have := List.any_eq_false.mp hany _ he
          simp at this

theorem unlike_inv (s : State) (u : UserId) (pk : PostId)
    (h : StateInv s) : StateInv (unlike s u pk).2 := by
  obtain ⟨hself, hnd, hlk⟩ := h
  cases hpost : findPostByPk s pk with
  | none => simp only [unlike, hpost]; exact ⟨hself, hnd, hlk⟩
  | some post =>
    cases hu : findProfileByUser s u with
    | none => simp only [unlike, hpost, hu]; exact ⟨hself, hnd, hlk⟩
    | some prof =>
      cases hm : s.likes.filter
          (fun l => l.profile == prof.id && l.post == post.id) with
      | nil => simp only [unlike, hpost, hu, hm]; exact ⟨hself, hnd, hlk⟩
      | cons e rest =>
        cases rest with
        | nil =>
          simp only [unlike, hpost, hu, hm]
          exact ⟨hself, hnd, List.Nodup.filter _ hlk⟩
        | cons f rest2 =>
          simp only [unlike, hpost, hu, hm]
          exact ⟨hself, hnd, hlk⟩

theorem addComment_inv (s : State) (u : UserId) (pk : PostId)
    (content : Str) (cid : Nat)
    (h : StateInv s) : StateInv (addComment s u pk content cid).2 := by
  obtain ⟨hself, hnd, hlk⟩ := h
  cases hpost : findPostByPk s pk with
  | none => simp only [addComment, hpost]; exact ⟨hself, hnd, hlk⟩
  | some post =>
    cases hu : findProfileByUser s u with
    | none => simp only [addComment, hpost, hu]; exact ⟨hself, hnd, hlk⟩
    | some prof =>
      simp only [addComment, hpost, hu]
      exact ⟨hself, hnd, hlk⟩

theorem applyOp_inv (s : State) (op : Op) (h : StateInv s) :
    StateInv (applyOp s op) := by
  cases op with
  | follow u pk => exact follow_inv s u pk h
  | unfollow u pk => exact unfollow_inv s u pk h
  | like u pk => exact like_inv s u pk h
  | unlike u pk => exact unlike_inv s u pk h
  | addComment u pk content cid => exact addComment_inv s u pk content cid h
  | listPosts _ _ _ => exact h
  | feed _ _ _ => exact h
  | myPosts _ _ _ => exact h
  | likedPosts _ _ _ => exact h
  | listProfiles _ _ _ => exact h

/-- Claim C2: Every state reachable from a state satisfying the relational
invariants (no self-edge, at most one follow edge per ordered pair, at
most one Like per (profile, post) pair) satisfies them, and every
operation — follow, unfollow, like, unlike, add-comment, and the
read-only listings — preserves them from there. -/
theorem reachable_state_invariants (s₀ s : State)
    (h₀ : StateInv s₀) (hr : Reachable s₀ s) :
    StateInv s ∧ ∀ op : Op, StateInv (applyOp s op) := by
  have hs : StateInv s := by
    induction hr with
    | refl => exact h₀
    | step op rprev ih => exact applyOp_inv _ op ih
  exact ⟨hs, fun op => applyOp_inv s op hs⟩

/-- Witness for `reachable_state_invariants`: from a two-profile state,
one follow request. -/
theorem reachable_state_invariants_witness :
    StateInv (applyOp
      ⟨[10, 20], [⟨1, 10, ['a'], [], []⟩, ⟨2, 20, ['b'], [], []⟩],
        [], [], [], []⟩ (Op.follow 10 2)) ∧
    ∀ op : Op, StateInv (applyOp (applyOp
      ⟨[10, 20], [⟨1, 10, ['a'], [], []⟩, ⟨2, 20, ['b'], [], []⟩],
        [], [], [], []⟩ (Op.follow 10 2)) op) :=
  reachable_state_invariants
    ⟨[10, 20], [⟨1, 10, ['a'], [], []⟩, ⟨2, 20, ['b'], [], []⟩],
      [], [], [], []⟩ _
    (by refine ⟨?_, ?_, ?_⟩ <;> simp [StateInv])
    (Reachable.step (Op.follow 10 2) Reachable.refl)

theorem liked_by_user_of_mem_queryset (s : State) (viewer : ProfileId)
    (c a : Option Str) (ap : AnnotatedPost)
    (h : ap ∈ postGetQueryset s viewer c a) :
    ap.liked_by_user = likedByUser s viewer ap.post.id := by
  have hbase : ap ∈ s.posts.map
      (fun p => AnnotatedPost.mk p (likedByUser s viewer p.id)) := by
    simp only [postGetQueryset] at h
    rcases a with _ | g <;> rcases c with _ | f
    · exact h
    · exact List.mem_of_mem_filter h
    · exact List.mem_of_mem_filter h
    · exact List.mem_of_mem_filter (List.mem_of_mem_filter h)
  obtain ⟨p, hp, rfl⟩ := List.mem_map.mp hbase
  rfl

/-- Claim C1: Every item returned by the four post listings (`list`, `feed`,
`my-posts`, `liked`) carries a like count equal to the number of Like rows
for the post, a comment count equal to the number of Comment rows for the
post, and a `liked_by_user` flag that is true exactly when a Like row by
the requesting profile exists for the post, all read off the state the
query is evaluated against. -/
theorem listing_annotations_live (s : State) (viewer : ProfileId)
    (c a : Option Str) :
    ∀ L ∈ [listPosts s viewer c a, feedItems s viewer c a,
           myPostsItems s viewer c a, likedItems s viewer c a],
    ∀ item ∈ L,
      item.likes_count = s.likes.countP (fun l => l.post == item.post.id) ∧
      item.comments_count =
        s.comments.countP (fun cm => cm.post == item.post.id) ∧
      (item.liked_by_user = true ↔
        ∃ l ∈ s.likes, l.profile = viewer ∧ l.post = item.post.id) := by
  have hprops : ∀ ap ∈ postGetQueryset s viewer c a,
      (serializePost s ap).likes_count =
        s.likes.countP (fun l => l.post == (serializePost s ap).post.id) ∧
      (serializePost s ap).comments_count =
        s.comments.countP (fun cm => cm.post == (serializePost s ap).post.id) ∧
      ((serializePost s ap).liked_by_user = true ↔
        ∃ l ∈ s.likes, l.profile = viewer ∧
          l.post = (serializePost s ap).post.id) := by
    intro ap hap
    have hl := liked_by_user_of_mem_queryset s viewer c a ap hap
    refine ⟨?_, ?_, ?_⟩
    · rw [List.countP_eq_length_filter]
      rfl
    · rw [List.countP_eq_length_filter]
      rfl
    · show ap.liked_by_user = true ↔ _
      rw [hl]
      simp only [likedByUser, List.any_eq_true, Bool.and_eq_true,
        beq_iff_eq]
      constructor
      · rintro ⟨l, hl2, h1, h2⟩
        exact ⟨l, hl2, h1, h2⟩
      · rintro ⟨l, hl2, h1, h2⟩
        exact ⟨l, hl2, h1, h2⟩
  intro L hL item hitem
  have hL4 : L = listPosts s viewer c a ∨ L = feedItems s viewer c a ∨
      L = myPostsItems s viewer c a ∨ L = likedItems s viewer c a := by
    simpa using hL
  rcases hL4 with rfl | rfl | rfl | rfl
  · obtain ⟨ap, h1, rfl⟩ := List.mem_map.mp hitem
    exact hprops ap h1
  · obtain ⟨ap, h1, rfl⟩ := List.mem_map.mp hitem
    simp only [feedQueryset] at h1
    exact hprops ap (List.mem_of_mem_filter h1)
  · obtain ⟨ap, h1, rfl⟩ := List.mem_map.mp hitem
    simp only [myPostsQueryset] at h1
    exact hprops ap (List.mem_of_mem_filter h1)
  · obtain ⟨ap, h1, rfl⟩ := List.mem_map.mp hitem
    simp only [likedQueryset] at h1
    exact hprops ap (List.mem_of_mem_filter h1)

/-- Witness for `listing_annotations_live`: profile 2 views the listing of
a one-post state where it has liked the post once and commented once. -/
theorem listing_annotations_live_witness :
    (⟨⟨7, 1, ['h', 'i']⟩, 1, 1, true⟩ : PostListItem).likes_count =
      ([⟨2, 7⟩] : List Like).countP (fun l => l.post == 7) ∧
    (⟨⟨7, 1, ['h', 'i']⟩, 1, 1, true⟩ : PostListItem).comments_count =
      ([⟨3, 2, 7, ['y', 'o']⟩] : List Comment).countP (fun cm => cm.post == 7) ∧
    ((⟨⟨7, 1, ['h', 'i']⟩, 1, 1, true⟩ : PostListItem).liked_by_user = true ↔
      ∃ l ∈ ([⟨2, 7⟩] : List Like), l.profile = 2 ∧ l.post = 7) := by
  have h := listing_annotations_live
    ⟨[10, 20], [⟨1, 10, ['a'], [], []⟩, ⟨2, 20, ['b'], [], []⟩],
      [], [⟨7, 1, ['h', 'i']⟩], [⟨2, 7⟩], [⟨3, 2, 7, ['y', 'o']⟩]⟩
    2 none none
    (listPosts
      ⟨[10, 20], [⟨1, 10, ['a'], [], []⟩, ⟨2, 20, ['b'], [], []⟩],
        [], [⟨7, 1, ['h', 'i']⟩], [⟨2, 7⟩], [⟨3, 2, 7, ['y', 'o']⟩]⟩
      2 none none)
    (by simp)
    ⟨⟨7, 1, ['h', 'i']⟩, 1, 1, true⟩
    (by decide)
  exact h

theorem find_id_of_nodup (l : List Profile)
    (hnd : (l.map Profile.id).Nodup)
    (prof : Profile) (hmem : prof ∈ l) :
    l.find? (fun p => p.id == prof.id) = some prof := by
  induction l with
  | nil => simp at hmem
  | cons q rest ih =>
    rcases List.mem_cons.mp hmem with rfl | hrest
    · simp [List.find?]
    · have hq : (q.id == prof.id) = false := by
        rw [beq_eq_false_iff_ne]
        intro hc
        have hmm : q.id ∈ rest.map Profile.id := by
          rw [hc]
          exact List.mem_map_of_mem _ hrest
        have hcons : ¬ q.id ∈ rest.map Profile.id :=
          (List.nodup_cons.mp (by simpa using hnd)).1
        exact hcons hmm
      rw [List.find?_cons_of_neg _ (by simp [hq]), ih
        (List.nodup_cons.mp (by simpa using hnd)).2 hrest]

theorem authorMatch_iff (s : State)
    (hnd : (s.profiles.map Profile.id).Nodup) (pid : ProfileId) (f : Str) :
    ((match findProfileByPk s pid with
      | some prof => icontains prof.username f
      | none => false) = true) ↔
      ∃ prof ∈ s.profiles, prof.id = pid ∧ CISubstr f prof.username := by
  constructor
  · intro h
    cases hfp : findProfileByPk s pid with
    | none => rw [hfp] at h; simp at h
    | some prof =>
      rw [hfp] at h
      have hfp2 : s.profiles.find? (fun p => p.id == pid) = some prof := hfp
      have hmem : prof ∈ s.profiles := List.mem_of_find?_eq_some hfp2
      have hid := List.find?_some hfp2
      exact ⟨prof, hmem, by simpa using hid, (icontains_iff _ _).mp h⟩
  · rintro ⟨prof, hmem, rfl, hci⟩
    have : findProfileByPk s prof.id = some prof :=
      find_id_of_nodup s.profiles hnd prof hmem
    rw [this]
    exact (icontains_iff _ _).mpr hci

theorem mem_truthyIcontainsFilter (l : List Profile) (field : Profile → Str)
    (o : Option Str) (q : Profile) :
    q ∈ truthyIcontainsFilter l field o ↔
      (q ∈ l ∧ OptFilterHolds o (field q)) := by
  cases o with
  | none => simp [truthyIcontainsFilter, OptFilterHolds]
  | some f =>
    by_cases hf : f.isEmpty
    · have hfe : f = [] := by simpa using hf
      subst hfe
      simp only [truthyIcontainsFilter, List.isEmpty_nil, if_true,
        OptFilterHolds, Option.some.injEq]
      constructor
      · intro hq
        exact ⟨hq, fun f hfeq => hfeq ▸ CISubstr_nil _⟩
      · exact fun h => h.1
    · simp only [truthyIcontainsFilter, hf, if_false, List.mem_filter,
        OptFilterHolds, Option.some.injEq, Bool.false_eq_true]
      constructor
      · rintro ⟨hq, hic⟩
        exact ⟨hq, fun g hg => hg ▸ (icontains_iff _ _).mp hic⟩
      · rintro ⟨hq, hic⟩
        exact ⟨hq, (icontains_iff _ _).mpr (hic f rfl)⟩

theorem exists_annot_base (s : State) (viewer : ProfileId) (p : Post) :
    (∃ ap ∈ s.posts.map
      (fun x => AnnotatedPost.mk x (likedByUser s viewer x.id)),
      ap.post = p) ↔ p ∈ s.posts := by
  simp only [List.mem_map]
  constructor
  · rintro ⟨ap, ⟨x, hx, rfl⟩, hp⟩
    cases hp
    exact hx
  · intro hp
    exact ⟨_, ⟨p, hp, rfl⟩, rfl⟩

theorem exists_annot_filter (s : State) (viewer : ProfileId)
    (g : AnnotatedPost → Bool) (p : Post) :
    (∃ ap ∈ (s.posts.map
        (fun x => AnnotatedPost.mk x (likedByUser s viewer x.id))).filter g,
      ap.post = p) ↔
      (p ∈ s.posts ∧
        g (AnnotatedPost.mk p (likedByUser s viewer p.id)) = true) := by
  simp only [List.mem_filter, List.mem_map]
  constructor
  · rintro ⟨ap, ⟨⟨x, hx, rfl⟩, hg⟩, hp⟩
    cases hp
    exact ⟨hx, hg⟩
  · rintro ⟨hp, hg⟩
    exact ⟨_, ⟨⟨p, hp, rfl⟩, hg⟩, rfl⟩

/-- Claim C7: Filter semantics of the listings: a post is selected by
`ListPosts` exactly when its content contains the supplied content filter
and its author's username contains the supplied author filter, each as a
case-insensitive substring, absent filters imposing no restriction and
supplied filters combining by logical AND; a profile is selected by
`ListProfiles` exactly when username, first name and last name each
contain their supplied filter, likewise. Profile primary keys are assumed
unique (a database constraint). -/
theorem listing_filter_semantics (s : State) (viewer : ProfileId)
    (c a un fn ln : Option Str)
    (hnd : (s.profiles.map Profile.id).Nodup) :
    (∀ p : Post,
      (∃ ap ∈ postGetQueryset s viewer c a, ap.post = p) ↔
        (p ∈ s.posts ∧ OptFilterHolds c p.content ∧
          AuthorUsernameHolds s.profiles a p)) ∧
    (∀ q : Profile,
      q ∈ profileGetQueryset s un fn ln ↔
        (q ∈ s.profiles ∧ OptFilterHolds un q.username ∧
          OptFilterHolds fn q.first_name ∧ OptFilterHolds ln q.last_name)) := by
  constructor
  · intro p
    rcases a with _ | g <;> rcases c with _ | f
    · simp only [postGetQueryset]
      rw [exists_annot_base]
      simp [OptFilterHolds, AuthorUsernameHolds]
    · simp only [postGetQueryset]
      rw [exists_annot_filter]
      have : OptFilterHolds (some f) p.content ↔ CISubstr f p.content := by
        simp [OptFilterHolds]
      rw [this]
      have h2 : AuthorUsernameHolds s.profiles none p ↔ True := by
        simp [AuthorUsernameHolds]
      rw [h2]
      have h3 : icontains (AnnotatedPost.mk p (likedByUser s viewer p.id)).post.content f =
          icontains p.content f := rfl
      rw [h3, icontains_iff]
      tauto
    · simp only [postGetQueryset]
      rw [exists_annot_filter]
      have h1 : OptFilterHolds none p.content ↔ True := by
        simp [OptFilterHolds]
      have h2 : AuthorUsernameHolds s.profiles (some g) p ↔
          ∃ prof ∈ s.profiles, prof.id = p.author ∧ CISubstr g prof.username := by
        simp [AuthorUsernameHolds]
      rw [h1, h2, authorMatch_iff s hnd p.author g]
      tauto
    · simp only [postGetQueryset, List.filter_filter]
      rw [exists_annot_filter]
      have h1 : OptFilterHolds (some f) p.content ↔ CISubstr f p.content := by
        simp [OptFilterHolds]
      have h2 : AuthorUsernameHolds s.profiles (some g) p ↔
          ∃ prof ∈ s.profiles, prof.id = p.author ∧ CISubstr g prof.username := by
        simp [AuthorUsernameHolds]
      rw [h1, h2]
      rw [Bool.and_eq_true, icontains_iff, authorMatch_iff s hnd p.author g]
      try tauto
  · intro q
    simp only [profileGetQueryset]
    rw [mem_truthyIcontainsFilter, mem_truthyIcontainsFilter,
      mem_truthyIcontainsFilter]
    tauto

/-- Witness for `listing_filter_semantics`: the content filter `"ELL"`
selects the post with content `"hello world"`. -/
theorem listing_filter_semantics_witness :
    ((∃ ap ∈ postGetQueryset
        ⟨[10], [⟨1, 10, ['a'], [], []⟩], [],
          [⟨7, 1, "hello world".toList⟩], [], []⟩
        1 (some "ELL".toList) none, ap.post = ⟨7, 1, "hello world".toList⟩) ↔
      (⟨7, 1, "hello world".toList⟩ ∈
          ([⟨7, 1, "hello world".toList⟩] : List Post) ∧
        OptFilterHolds (some "ELL".toList) "hello world".toList ∧
        AuthorUsernameHolds [⟨1, 10, ['a'], [], []⟩]
          none ⟨7, 1, "hello world".toList⟩)) :=
  (listing_filter_semantics
    ⟨[10], [⟨1, 10, ['a'], [], []⟩], [],
      [⟨7, 1, "hello world".toList⟩], [], []⟩
    1 (some "ELL".toList) none none none none (by decide)).1
    ⟨7, 1, "hello world".toList⟩

theorem follow_snd_profiles (s : State) (u : UserId) (pk : ProfileId) :
    ((follow s u pk).2).profiles = s.profiles := by
  unfold follow
  repeat' split
  all_goals rfl

theorem runFollowsOk_cons_ok (s : State) (u : UserId) (pk : ProfileId)
    (rest : List UserId) (h : (follow s u pk).1 = .ok) :
    runFollowsOk s (u :: rest) pk = runFollowsOk (follow s u pk).2 rest pk := by
  simp [runFollowsOk, h]

theorem runFollowTargetsOk_cons_ok (s : State) (u : UserId)
    (pk : ProfileId) (rest : List ProfileId) (h : (follow s u pk).1 = .ok) :
    runFollowTargetsOk s u (pk :: rest) =
      runFollowTargetsOk (follow s u pk).2 u rest := by
  simp [runFollowTargetsOk, h]

theorem runFollowsOk_into_aux (pk : ProfileId) (tp : Profile)
    (us : List UserId) :
    ∀ s : State,
    findProfileByPk s pk = some tp →
    (∀ x ∈ us, ∃ q, findProfileByUser s x = some q ∧ q.id ≠ tp.id ∧
      ∀ r ∈ s.follows, r.following = tp.id → r.follower ≠ q.id) →
    us.Pairwise (fun x y =>
      (findProfileByUser s x).map Profile.id ≠
        (findProfileByUser s y).map Profile.id) →
    (runFollowsOk s us pk).1 = true ∧
    followers_count (runFollowsOk s us pk).2 tp.id =
      followers_count s tp.id + us.length := by
  induction us with
  | nil =>
    intro s h1 h2 h3
    exact ⟨rfl, by simp [runFollowsOk]⟩
  | cons x rest ih =>
    intro s h1 h2 h3
    obtain ⟨q, hq, hqne, hqedge⟩ := h2 x (by simp)
    have hnoedge : ∀ r ∈ s.follows,
        ¬(r.follower = q.id ∧ r.following = tp.id) := by
      intro r hr hc
      exact hqedge r hr hc.2 hc.1
    have hfol := follow_creates s x pk q tp hq h1 hqne hnoedge
    have hok : (follow s x pk).1 = .ok := by rw [hfol]
    have hst : (follow s x pk).2 =
        { s with follows := s.follows ++ [⟨q.id, tp.id⟩] } := by rw [hfol]
    rw [runFollowsOk_cons_ok s x pk rest hok, hst]
    have hpair := List.pairwise_cons.mp h3
    have ihres := ih { s with follows := s.follows ++ [⟨q.id, tp.id⟩] }
      h1
      (by
        intro y hy
        obtain ⟨q2, hq2, hne2, hedge2⟩ := h2 y (List.mem_cons_of_mem x hy)
        refine ⟨q2, hq2, hne2, ?_⟩
        intro r hr hfoll
        rcases List.mem_append.mp hr with hold | hnew
        · exact hedge2 r hold hfoll
        · have : r = ⟨q.id, tp.id⟩ := by simpa using hnew
          subst this
          intro hcontra
          have hxy := hpair.1 y hy
          rw [hq, hq2] at hxy
          simp only [Option.map_some'] at hxy
          exact hxy (congrArg some hcontra)
      )
      hpair.2
    refine ⟨ihres.1, ?_⟩
    rw [ihres.2]
    have hplus : followers_count
        { s with follows := s.follows ++ [⟨q.id, tp.id⟩] } tp.id =
        followers_count s tp.id + 1 := by
      unfold followers_count
      rw [List.filter_append]
      simp
    rw [hplus]
    simp only [List.length_cons]
    omega

theorem runFollowTargetsOk_out_aux (u : UserId) (p : Profile)
    (pks : List ProfileId) :
    ∀ s : State,
    findProfileByUser s u = some p →
    (∀ x ∈ pks, ∃ tq, findProfileByPk s x = some tq ∧ tq.id ≠ p.id ∧
      ∀ r ∈ s.follows, r.follower = p.id → r.following ≠ tq.id) →
    pks.Pairwise (fun x y =>
      (findProfileByPk s x).map Profile.id ≠
        (findProfileByPk s y).map Profile.id) →
    (runFollowTargetsOk s u pks).1 = true ∧
    following_count (runFollowTargetsOk s u pks).2 p.id =
      following_count s p.id + pks.length := by
  induction pks with
  | nil =>
    intro s h1 h2 h3
    exact ⟨rfl, by simp [runFollowTargetsOk]⟩
  | cons x rest ih =>
    intro s h1 h2 h3
    obtain ⟨tq, htq, htqne, htqedge⟩ := h2 x (by simp)
    have hnoedge : ∀ r ∈ s.follows,
        ¬(r.follower = p.id ∧ r.following = tq.id) := by
      intro r hr hc
      exact htqedge r hr hc.1 hc.2
    have hfol := follow_creates s u x p tq h1 htq
      (fun hc => htqne hc.symm) hnoedge
    have hok : (follow s u x).1 = .ok := by rw [hfol]
    have hst : (follow s u x).2 =
        { s with follows := s.follows ++ [⟨p.id, tq.id⟩] } := by rw [hfol]
    rw [runFollowTargetsOk_cons_ok s u x rest hok, hst]
    have hpair := List.pairwise_cons.mp h3
    have ihres := ih { s with follows := s.follows ++ [⟨p.id, tq.id⟩] }
      h1
      (by
        intro y hy
        obtain ⟨tq2, htq2, hne2, hedge2⟩ := h2 y (List.mem_cons_of_mem x hy)
        refine ⟨tq2, htq2, hne2, ?_⟩
        intro r hr hfoll
        rcases List.mem_append.mp hr with hold | hnew
        · exact hedge2 r hold hfoll
        · have : r = ⟨p.id, tq.id⟩ := by simpa using hnew
          subst this
          intro hcontra
          have hxy := hpair.1 y hy
          rw [htq, htq2] at hxy
          simp only [Option.map_some'] at hxy
          exact hxy (congrArg some hcontra)
      )
      hpair.2
    refine ⟨ihres.1, ?_⟩
    rw [ihres.2]
    have hplus : following_count
        { s with follows := s.follows ++ [⟨p.id, tq.id⟩] } p.id =
        following_count s p.id + 1 := by
      unfold following_count
      rw [List.filter_append]
      simp
    rw [hplus]
    simp only [List.length_cons]
    omega

/-- Claim C8: Exact follower/following counts: from a state where profile
`tp` has no incoming edges and profile `p` has no outgoing edges, a
sequence of follows into `tp` by users resolving to pairwise-distinct
profiles (none being `tp`) all succeed and leave `followers_count` for
`tp` equal to the number of follows, and a sequence of follows by `p`'s
user toward pairwise-distinct target profiles (none being `p`) all
succeed and leave `following_count` for `p` equal to the number of
follows. -/
theorem follow_counts_exact (s : State) (pk : ProfileId) (tp : Profile)
    (us : List UserId) (u : UserId) (p : Profile) (pks : List ProfileId)
    (h1 : findProfileByPk s pk = some tp)
    (h2 : ∀ x ∈ us, ∃ q, findProfileByUser s x = some q ∧ q.id ≠ tp.id)
    (h3 : us.Pairwise (fun x y =>
      (findProfileByUser s x).map Profile.id ≠
        (findProfileByUser s y).map Profile.id))
    (h4 : ∀ r ∈ s.follows, r.following ≠ tp.id)
    (h5 : findProfileByUser s u = some p)
    (h6 : ∀ x ∈ pks, ∃ tq, findProfileByPk s x = some tq ∧ tq.id ≠ p.id)
    (h7 : pks.Pairwise (fun x y =>
      (findProfileByPk s x).map Profile.id ≠
        (findProfileByPk s y).map Profile.id))
    (h8 : ∀ r ∈ s.follows, r.follower ≠ p.id) :
    (runFollowsOk s us pk).1 = true ∧
    followers_count (runFollowsOk s us pk).2 tp.id = us.length ∧
    (runFollowTargetsOk s u pks).1 = true ∧
    following_count (runFollowTargetsOk s u pks).2 p.id = pks.length := by
  have hzero_in : followers_count s tp.id = 0 := by
    unfold followers_count
    rw [List.length_eq_zero]
    rw [List.filter_eq_nil_iff]
    intro r hr
    simpa using h4 r hr
  have hzero_out : following_count s p.id = 0 := by
    unfold following_count
    rw [List.length_eq_zero]
    rw [List.filter_eq_nil_iff]
    intro r hr
    simpa using h8 r hr
  have hin := runFollowsOk_into_aux pk tp us s h1
    (by
      intro x hx
      obtain ⟨q, hq, hne⟩ := h2 x hx
      exact ⟨q, hq, hne, fun r hr hf => absurd hf (h4 r hr)⟩)
    h3
  have hout := runFollowTargetsOk_out_aux u p pks s h5
    (by
      intro x hx
      obtain ⟨tq, htq, hne⟩ := h6 x hx
      exact ⟨tq, htq, hne, fun r hr hf => absurd hf (h8 r hr)⟩)
    h7
  refine ⟨hin.1, ?_, hout.1, ?_⟩
  · rw [hin.2, hzero_in]
    omega
  · rw [hout.2, hzero_out]
    omega

/-- Witness for `follow_counts_exact`: profiles 1 and 2 follow profile 5
(two followers), and profile 5 follows profiles 1 and 2 (two followed). -/
theorem follow_counts_exact_witness :
    (runFollowsOk
      ⟨[10, 20, 50], [⟨5, 50, ['p'], [], []⟩, ⟨1, 10, ['a'], [], []⟩,
        ⟨2, 20, ['b'], [], []⟩], [], [], [], []⟩ [10, 20] 5).1 = true ∧
    followers_count (runFollowsOk
      ⟨[10, 20, 50], [⟨5, 50, ['p'], [], []⟩, ⟨1, 10, ['a'], [], []⟩,
        ⟨2, 20, ['b'], [], []⟩], [], [], [], []⟩ [10, 20] 5).2 5 = 2 ∧
    (runFollowTargetsOk
      ⟨[10, 20, 50], [⟨5, 50, ['p'], [], []⟩, ⟨1, 10, ['a'], [], []⟩,
        ⟨2, 20, ['b'], [], []⟩], [], [], [], []⟩ 50 [1, 2]).1 = true ∧
    following_count (runFollowTargetsOk
      ⟨[10, 20, 50], [⟨5, 50, ['p'], [], []⟩, ⟨1, 10, ['a'], [], []⟩,
        ⟨2, 20, ['b'], [], []⟩], [], [], [], []⟩ 50 [1, 2]).2 5 = 2 :=
  follow_counts_exact
    ⟨[10, 20, 50], [⟨5, 50, ['p'], [], []⟩, ⟨1, 10, ['a'], [], []⟩,
      ⟨2, 20, ['b'], [], []⟩], [], [], [], []⟩
    5 ⟨5, 50, ['p'], [], []⟩ [10, 20] 50 ⟨5, 50, ['p'], [], []⟩ [1, 2]
    rfl
    (by
      intro x hx
      rcases List.mem_cons.mp hx with rfl | hx2
      · exact ⟨⟨1, 10, ['a'], [], []⟩, rfl, by decide⟩
      rcases List.mem_cons.mp hx2 with rfl | hx3
      · exact ⟨⟨2, 20, ['b'], [], []⟩, rfl, by decide⟩
      · simp at hx3)
    (by decide)
    (by decide)
    rfl
    (by
      intro x hx
      rcases List.mem_cons.mp hx with rfl | hx2
      · exact ⟨⟨1, 10, ['a'], [], []⟩, rfl, by decide⟩
      rcases List.mem_cons.mp hx2 with rfl | hx3
      · exact ⟨⟨2, 20, ['b'], [], []⟩, rfl, by decide⟩
      · simp at hx3)
    (by decide)
    (by decide)

end SocialMedia
